import Mathlib

/-!
Verification of the pull-agent download coordinator.

The development shallowly embeds the Go sources of the pull-agent
repository: the HTTP proxy handler (`HandlerFunc`, `copyFromURL`,
`copyFromFile`, `fileWriter.Write` from `pkg/proxy`) and the serf-based
digest registry (`Endpoints`, `addNode`, `delNode`, the `Serve` event
loop from `pkg/cluster/serf`).  Effectful code is modelled by explicit
environments describing the outcomes of the external calls (HTTP GET,
file creation, chunk reads and writes) and by traces of the observable
actions the handler performs, in program order.
-/

namespace PullAgent

/-- State of the two sinks of the dual-destination copy: the chunks so far
appended to the local cache file and the chunks so far delivered to the
HTTP response.  Chunks are identified by abstract ids. -/
structure FW where
  fileChunks : List Nat
  respChunks : List Nat
deriving DecidableEq

/-- Failure pattern of the two sinks during a copy: whether the i-th file
write succeeds and whether the i-th response write succeeds. -/
structure Sinks where
  fileOk : Nat → Bool
  respOk : Nat → Bool

/-- Outcome of reading the origin response body: the chunks successfully
read, followed (when `readErr` is set) by a non-EOF read error, e.g. the
unexpected end of a connection the origin closed early. -/
structure RespBody where
  chunks : List Nat
  readErr : Bool

/-- Embedding of `fileWriter.Write` (proxy.go): the data is first written
to the file with the result discarded, then written to the response
writer, whose result (error flag) is what the method returns. -/
def fwWrite (sinks : Sinks) (i : Nat) (c : Nat) (s : FW) : FW × Bool :=
  let s1 := if sinks.fileOk i then { s with fileChunks := s.fileChunks ++ [c] } else s
  if sinks.respOk i then ({ s1 with respChunks := s1.respChunks ++ [c] }, false)
  else (s1, true)

/-- Embedding of the `io.CopyBuffer` loop over a `fileWriter` destination:
each chunk read from the body is handed to `fwWrite`; the loop stops at
the first write error. -/
def copyBuffer (sinks : Sinks) : List Nat → Nat → FW → FW × Bool
  | [], _, s => (s, false)
  | c :: rest, i, s =>
    let r := fwWrite sinks i c s
    if r.2 then (r.1, true) else copyBuffer sinks rest (i + 1) r.1

/-- Overall result of `io.CopyBuffer(fw, resp.Body, buf)`: the final sink
state, and whether the copy returned an error (a response-write error or
a non-EOF body read error). -/
def copyResult (sinks : Sinks) (b : RespBody) : FW × Bool :=
  let r := copyBuffer sinks b.chunks 0 ⟨[], []⟩
  (r.1, r.2 || b.readErr)

/-- Observable actions of the proxy handler, in program order. -/
inductive Action where
  | setContentLength (v : Int)
  | writeHeader (code : Nat)
  | serveFromFile (path : String) (length : Int)
  | queryEndpoints (path : String)
  | httpGet (url : String)
  | createFile (f : String)
  | startLayer (p : String)
  | bodyCopy (url : String)
  | removeFile (f : String)
  | endLayer (p : String)
deriving DecidableEq

/-- Environment for one handler invocation: the registry answer
(`cluster.Endpoints`), the value drawn by `rand.Intn`, whether the
outbound HTTP GET and `os.Create` succeed, and the behaviour of the body
and of the two write sinks during the copy. -/
structure Env where
  endpoints : List String
  randIdx : Nat
  getOk : Bool
  createOk : Bool
  body : RespBody
  sinks : Sinks

/-- Whether `io.CopyBuffer` returns an error in this environment. -/
def copyErr (env : Env) : Bool := (copyResult env.sinks env.body).2

/-- Cache file path: `fmt.Sprintf("%s%s", p.localDir, path)`. -/
def filePath (localDir path : String) : String := localDir ++ path

/-- Relay URL construction:
`fmt.Sprintf("http://%s:%d%s?relay=true&len=%d", node, p.port, path, length)`. -/
def relayURL (node : String) (port : Int) (path : String) (length : Int) : String :=
  "http://" ++ node ++ ":" ++ toString port ++ path ++ "?relay=true&len=" ++ toString length

/-- Embedding of `copyFromURL` as the trace of its observable actions:
GET the url (on failure: status 400 and return); create the cache file
(on failure: status 500 and return); broadcast `StartLayer`; run the
copy; on a copy error remove the cache file; the deferred `EndLayer`
broadcast runs on return. -/
def copyFromURL (env : Env) (localDir path url : String) : List Action :=
  .httpGet url ::
    if !env.getOk then [.writeHeader 400]
    else
      .createFile (filePath localDir path) ::
        if !env.createOk then [.writeHeader 500]
        else
          .startLayer path :: .bodyCopy url ::
            (if copyErr env then [.removeFile (filePath localDir path)] else []) ++
              [.endLayer path]

/-- One parsed HTTP request as the handler sees it: the URL path, the
result of `strconv.ParseInt` on the `len` query parameter (`none` when
missing or unparseable), the raw `relay` and `source` query parameters,
and the result of `url.QueryUnescape(source)` (`none` when it fails). -/
structure Request where
  path : String
  lenParam : Option Int
  relay : String
  source : String
  unescaped : Option String

/-- Embedding of `HandlerFunc` as the trace of its observable actions:
reject with 400 when `len` does not parse; echo `Content-Length`; a
non-empty `relay` parameter serves from the local file; otherwise query
the registry and, when it has at least one node, relay from a randomly
chosen peer via `copyFromURL`; otherwise a non-empty `source` is
unescaped (500 on failure) and fetched via `copyFromURL`; otherwise the
handler returns with nothing written. -/
def HandlerFunc (env : Env) (localDir : String) (port : Int) (req : Request) : List Action :=
  match req.lenParam with
  | none => [.writeHeader 400]
  | some length =>
    .setContentLength length ::
      if req.relay ≠ "" then [.serveFromFile req.path length]
      else
        .queryEndpoints req.path ::
          if env.endpoints.length ≥ 1 then
            copyFromURL env localDir req.path
              (relayURL (env.endpoints.getD env.randIdx "") port req.path length)
          else if req.source ≠ "" then
            match req.unescaped with
            | none => [.writeHeader 500]
            | some src => copyFromURL env localDir req.path src
          else []

/-- Boolean recogniser for `startLayer` actions. -/
def isStartAct : Action → Bool
  | .startLayer _ => true
  | _ => false

/-- Boolean recogniser for `endLayer` actions. -/
def isEndAct : Action → Bool
  | .endLayer _ => true
  | _ => false

/-- Boolean recogniser for `httpGet` actions. -/
def isGetAct : Action → Bool
  | .httpGet _ => true
  | _ => false

/-- Number of STARTED broadcasts in a trace. -/
def countStart (tr : List Action) : Nat := (tr.filter isStartAct).length

/-- Number of ENDED broadcasts in a trace. -/
def countEnd (tr : List Action) : Nat := (tr.filter isEndAct).length

/-- Effect of one action on the existence of the cache file `f`. -/
def fileStep (f : String) (b : Bool) : Action → Bool
  | .createFile g => if g = f then true else b
  | .removeFile g => if g = f then false else b
  | _ => b

/-- Whether the cache file `f` exists after the trace ran (it did not
exist before). -/
def fileExistsAfter (f : String) (tr : List Action) : Bool :=
  tr.foldl (fileStep f) false

/-- HTTP 4xx: a client-error status. -/
def isClientErr (c : Nat) : Bool := 400 ≤ c && c < 500

/-- HTTP 5xx: a server-error status. -/
def isServerErr (c : Nat) : Bool := 500 ≤ c && c < 600

/-- Read buffer size of `copyFromFile`: `make([]byte, 50*1024*1024)`. -/
def cffBufSize : Int := 50 * 1024 * 1024

/-- Bytes returned by `file.ReadAt(buffer, offset)` on a file currently
holding `fileLen` bytes. -/
def readAtN (fileLen offset : Int) : Int := min cffBufSize (max (fileLen - offset) 0)

/-- Offset after one iteration of the `copyFromFile` loop: the bytes read
are written to the response and the offset advances by that count. -/
def cffStep (fileLen offset : Int) : Int := offset + readAtN fileLen offset

/-- Whether the iteration sleeps 300ms before retrying: `ReadAt` returned
`io.EOF` (it read fewer bytes than the buffer holds) and the offset is
still below the expected length. -/
def cffSleeps (fileLen length offset : Int) : Bool :=
  decide (readAtN fileLen offset < cffBufSize) && decide (offset < length)

/-- Fuel-indexed run of the `copyFromFile` loop
`for offset != (length - 1)` against a file that stays at `fileLen`
bytes: `some offset` when the loop exits within the fuel, `none` when it
is still polling. -/
def cffRun (fileLen length : Int) : Int → Nat → Option Int
  | offset, 0 => if offset = length - 1 then some offset else none
  | offset, fuel + 1 =>
    if offset = length - 1 then some offset
    else cffRun fileLen length (cffStep fileLen offset) fuel

/-- Event name constant `EventStartLayer` from serf.go. -/
def EventStartLayer : String := "START_LAYER"

/-- Event name constant `EventEndLayer` from serf.go. -/
def EventEndLayer : String := "END_LAYER"

/-- Status constant `StatusStarted` from serf.go. -/
def StatusStarted : Int := 1

/-- Status constant `StatusEnded` from serf.go. -/
def StatusEnded : Int := 0

/-- Payload of a layer user event (`LayerEvent` in serf.go). -/
structure LayerEvent where
  status : Int
  digest : String
  address : String
deriving DecidableEq

/-- One inbound cluster event: whether it is a user event, its event
name, and the result of `json.Unmarshal` on its payload (`none` when the
payload is not valid JSON for a `LayerEvent`). -/
structure ClusterEvent where
  isUser : Bool
  name : String
  payload : Option LayerEvent
deriving DecidableEq

/-- The registry mapping `byDigest`, modelled as an association list. -/
abbrev RegMap := List (String × List String)

/-- Go map assignment `m[k] = v` on an association list: replaces the
binding of `k` when present, inserts it otherwise. -/
def setAssoc {α : Type} : List (String × α) → String → α → List (String × α)
  | [], k, v => [(k, v)]
  | (k2, v2) :: m, k, v =>
    if k2 = k then (k, v) :: m else (k2, v2) :: setAssoc m k v

/-- Embedding of `serf.addNode`: look the digest up (missing key yields
the empty list), return unchanged when the node is already present,
otherwise append the node and store the list back. -/
def addNode (reg : RegMap) (digest node : String) : RegMap :=
  let nodes := (reg.lookup digest).getD []
  if node ∈ nodes then reg
  else setAssoc reg digest (nodes ++ [node])

/-- Embedding of `serf.delNode`: missing digest is a no-op, otherwise
store back the list with every occurrence of the node filtered out. -/
def delNode (reg : RegMap) (digest node : String) : RegMap :=
  match reg.lookup digest with
  | none => reg
  | some nodes => setAssoc reg digest (nodes.filter (fun n => n ≠ node))

/-- Embedding of one iteration of the `Serve` loop body on the registry
state: non-user events are skipped, a payload decode failure is skipped,
a decoded status equal to `StatusStarted` adds the node and a status
equal to `StatusEnded` removes it.  The event name is never consulted. -/
def processEvent (reg : RegMap) (e : ClusterEvent) : RegMap :=
  if e.isUser = false then reg
  else
    match e.payload with
    | none => reg
    | some le =>
      let reg1 := if le.status = StatusStarted then addNode reg le.digest le.address else reg
      if le.status = StatusEnded then delNode reg1 le.digest le.address else reg1

/-- The `Serve` consumption loop folded over a finite prefix of the
inbound event stream. -/
def Serve (reg : RegMap) (evs : List ClusterEvent) : RegMap :=
  evs.foldl processEvent reg

end PullAgent

namespace PullAgent.SerfMem

/-- Memory-level model of the serf registry, tracking slice aliasing: the
heap holds the backing arrays of the slices and `byDigest` maps each
digest to a reference into the heap, as the Go map stores slice
headers. -/
structure St where
  heap : List (List String)
  byDigest : List (String × Nat)
deriving DecidableEq

/-- Embedding of `serf.Endpoints`: `return s.byDigest[digest]` hands the
caller the stored slice reference itself, with no copy (`none` models
the nil slice of a missing key). -/
def Endpoints (st : St) (digest : String) : Option Nat :=
  st.byDigest.lookup digest

/-- Dereference a slice: the nil slice reads as empty. -/
def readSlice (st : St) : Option Nat → List String
  | none => []
  | some r => st.heap.getD r []

/-- Memory-level `serf.addNode`: `append` reallocates a backing array
holding the extended list and the map is updated to the new header. -/
def addNode (st : St) (digest node : String) : St :=
  let nodes := readSlice st (st.byDigest.lookup digest)
  if node ∈ nodes then st
  else
    { heap := st.heap ++ [nodes ++ [node]],
      byDigest := PullAgent.setAssoc st.byDigest digest (st.heap.length) }

/-- A caller mutating element `i` of a slice it was handed
(`nodes[i] = v` in Go): the write lands in the shared backing array. -/
def setElem (st : St) (r i : Nat) (v : String) : St :=
  { st with heap := st.heap.set r ((st.heap.getD r []).set i v) }

end PullAgent.SerfMem

namespace PullAgent

/-- Helper: when every response write succeeds, the copy loop delivers
every chunk to the response and reports no error, whatever the file sink
does. -/
lemma copyBuffer_respOk_all (fOk : Nat → Bool) :
    ∀ (chunks : List Nat) (i : Nat) (s : FW),
      (copyBuffer ⟨fOk, fun _ => true⟩ chunks i s).1.respChunks = s.respChunks ++ chunks ∧
      (copyBuffer ⟨fOk, fun _ => true⟩ chunks i s).2 = false := by
  intro chunks
  induction chunks with
  | nil => intro i s; simp [copyBuffer]
  | cons c rest ih =>
    intro i s
    cases hf : fOk i <;>
      simp [copyBuffer, fwWrite, hf, ih]

/-- C10: on every run of the URL-copy path, the ENDED broadcast happens
iff the STARTED broadcast happened: when the origin GET or the cache
file creation fails neither is issued, and otherwise each is issued
exactly once, on the success and on the error path alike. -/
theorem start_end_paired (env : Env) (localDir p u : String) :
    countStart (copyFromURL env localDir p u) = countEnd (copyFromURL env localDir p u) ∧
    countStart (copyFromURL env localDir p u) =
      (if env.getOk && env.createOk then 1 else 0) := by
  cases hg : env.getOk <;> cases hc : env.createOk <;> cases he : copyErr env <;>
    simp [copyFromURL, hg, hc, he, countStart, countEnd, isStartAct, isEndAct]

/-- C4: whenever the cache file was created and the copy from the origin
then fails, the run removes the cache file (it no longer exists at the
end of the trace) and broadcasts ENDED exactly once. -/
theorem failed_fetch_cleanup (env : Env) (localDir p u : String)
    (hg : env.getOk = true) (hc : env.createOk = true) (he : copyErr env = true) :
    fileExistsAfter (filePath localDir p) (copyFromURL env localDir p u) = false ∧
    countEnd (copyFromURL env localDir p u) = 1 := by
  simp [copyFromURL, hg, hc, he, fileExistsAfter, fileStep, countEnd, isEndAct]

/-- Witness for C4 at a concrete input: the origin closes the connection
after delivering 0 bytes (no chunks, then a read error), so the copy
fails; the cache file does not exist afterwards and ENDED was broadcast
exactly once. -/
theorem failed_fetch_cleanup_witness :
    copyErr ⟨[], 0, true, true, ⟨[], true⟩, ⟨fun _ => true, fun _ => true⟩⟩ = true ∧
    fileExistsAfter (filePath "/c" "/a")
        (copyFromURL ⟨[], 0, true, true, ⟨[], true⟩, ⟨fun _ => true, fun _ => true⟩⟩
          "/c" "/a" "http://origin/a") = false ∧
    countEnd (copyFromURL ⟨[], 0, true, true, ⟨[], true⟩, ⟨fun _ => true, fun _ => true⟩⟩
        "/c" "/a" "http://origin/a") = 1 := by
  refine ⟨by decide, ?_, ?_⟩
  · exact (failed_fetch_cleanup ⟨[], 0, true, true, ⟨[], true⟩, ⟨fun _ => true, fun _ => true⟩⟩
      "/c" "/a" "http://origin/a" rfl rfl (by decide)).1
  · exact (failed_fetch_cleanup ⟨[], 0, true, true, ⟨[], true⟩, ⟨fun _ => true, fun _ => true⟩⟩
      "/c" "/a" "http://origin/a" rfl rfl (by decide)).2

/-- C3 counterexample: on a concrete successful authoritative fetch the
first action of `copyFromURL` is the HTTP GET and the only STARTED
broadcast sits at position 2, so `StartLayer` does not precede the HTTP
GET to the source URL — the GET comes first. -/
theorem started_before_get_cex :
    (copyFromURL ⟨[], 0, true, true, ⟨[], false⟩, ⟨fun _ => true, fun _ => true⟩⟩
        "/c" "/a" "http://origin/a").get? 0 = some (.httpGet "http://origin/a") ∧
    (copyFromURL ⟨[], 0, true, true, ⟨[], false⟩, ⟨fun _ => true, fun _ => true⟩⟩
        "/c" "/a" "http://origin/a").get? 2 = some (.startLayer "/a") ∧
    countStart (copyFromURL ⟨[], 0, true, true, ⟨[], false⟩, ⟨fun _ => true, fun _ => true⟩⟩
        "/c" "/a" "http://origin/a") = 1 := by
  decide

/-- C3 as amended: on the authoritative path the HTTP GET to the source
comes first; once the GET and the file creation succeed, the STARTED
broadcast (position 2) is issued before the body copy begins
(position 3), i.e. before the first body byte is transferred. -/
theorem started_after_get_before_copy (env : Env) (localDir p u : String)
    (hg : env.getOk = true) (hc : env.createOk = true) :
    (copyFromURL env localDir p u).get? 0 = some (.httpGet u) ∧
    (copyFromURL env localDir p u).get? 2 = some (.startLayer p) ∧
    (copyFromURL env localDir p u).get? 3 = some (.bodyCopy u) := by
  cases he : copyErr env <;>
    simp [copyFromURL, hg, hc, he]

/-- Witness for the amended C3 at a concrete input. -/
theorem started_after_get_before_copy_witness :
    (copyFromURL ⟨[], 0, true, true, ⟨[2], false⟩, ⟨fun _ => true, fun _ => true⟩⟩
        "/c" "/a" "http://origin/a").get? 2 = some (.startLayer "/a") ∧
    (copyFromURL ⟨[], 0, true, true, ⟨[2], false⟩, ⟨fun _ => true, fun _ => true⟩⟩
        "/c" "/a" "http://origin/a").get? 3 = some (.bodyCopy "http://origin/a") := by
  refine ⟨?_, ?_⟩
  · exact (started_after_get_before_copy ⟨[], 0, true, true, ⟨[2], false⟩,
      ⟨fun _ => true, fun _ => true⟩⟩ "/c" "/a" "http://origin/a" rfl rfl).2.1
  · exact (started_after_get_before_copy ⟨[], 0, true, true, ⟨[2], false⟩,
      ⟨fun _ => true, fun _ => true⟩⟩ "/c" "/a" "http://origin/a" rfl rfl).2.2

/-- C5 counterexample: with both chunks readable and the cache file sink
healthy, a response-write failure on the first chunk aborts the whole
copy — the cache file ends with only the first chunk, the copy reports
an error, and the second chunk is never written to the cache, so the
cache write does not continue after the caller disconnects. -/
theorem cache_write_stops_cex :
    (copyResult ⟨fun _ => true, fun i => i != 0⟩ ⟨[7, 8], false⟩).1.fileChunks = [7] ∧
    (copyResult ⟨fun _ => true, fun i => i != 0⟩ ⟨[7, 8], false⟩).1.respChunks = [] ∧
    (copyResult ⟨fun _ => true, fun i => i != 0⟩ ⟨[7, 8], false⟩).2 = true := by
  decide

/-- C5 as amended: the two sinks of the dual-destination copy are not
symmetric.  A cache-file write failure never aborts delivery: with a
healthy response sink every chunk reaches the caller and the copy
reports no error, whatever the file sink does.  A response-write
failure, however, stops the loop at that chunk — `fileWriter.Write`
returns the response error, so no further chunk is written to either
sink. -/
theorem dual_sink_failure_handling :
    (∀ (fOk : Nat → Bool) (chunks : List Nat),
        (copyResult ⟨fOk, fun _ => true⟩ ⟨chunks, false⟩).1.respChunks = chunks ∧
        (copyResult ⟨fOk, fun _ => true⟩ ⟨chunks, false⟩).2 = false) ∧
    (∀ (sinks : Sinks) (c : Nat) (rest : List Nat) (i : Nat) (s : FW),
        sinks.respOk i = false →
        copyBuffer sinks (c :: rest) i s = ((fwWrite sinks i c s).1, true)) := by
  constructor
  · intro fOk chunks
    have h := copyBuffer_respOk_all fOk chunks 0 ⟨[], []⟩
    constructor
    · simpa [copyResult] using h.1
    · simp [copyResult, h.2]
  · intro sinks c rest i s h
    simp [copyBuffer, fwWrite, h]

/-- Witness for the amended C5 at concrete inputs: every cache write
fails yet the caller receives both chunks; and a response failure at the
first chunk stops the loop there. -/
theorem dual_sink_failure_handling_witness :
    (copyResult ⟨fun _ => false, fun _ => true⟩ ⟨[1, 2], false⟩).1.respChunks = [1, 2] ∧
    copyBuffer ⟨fun _ => true, fun _ => false⟩ [7, 8] 0 ⟨[], []⟩ =
      ((fwWrite ⟨fun _ => true, fun _ => false⟩ 0 7 ⟨[], []⟩).1, true) :=
  ⟨(dual_sink_failure_handling.1 (fun _ => false) [1, 2]).1,
   dual_sink_failure_handling.2 ⟨fun _ => true, fun _ => false⟩ 7 [8] 0 ⟨[], []⟩ rfl⟩

end PullAgent

namespace PullAgent

/-- C1 counterexample: a concrete non-relay request for which the
registry returns one peer.  The handler does relay through the peer, but
the relaying node creates its own cache file, broadcasts STARTED and
ENDED, and the cache file exists afterwards — it does not stream
"writing nothing locally". -/
theorem relay_branch_writes_locally_cex :
    Action.createFile "/c/a" ∈
      HandlerFunc ⟨["peerA"], 0, true, true, ⟨[], false⟩, ⟨fun _ => true, fun _ => true⟩⟩
        "/c" 80 ⟨"/a", some 1024, "", "", none⟩ ∧
    Action.startLayer "/a" ∈
      HandlerFunc ⟨["peerA"], 0, true, true, ⟨[], false⟩, ⟨fun _ => true, fun _ => true⟩⟩
        "/c" 80 ⟨"/a", some 1024, "", "", none⟩ ∧
    Action.endLayer "/a" ∈
      HandlerFunc ⟨["peerA"], 0, true, true, ⟨[], false⟩, ⟨fun _ => true, fun _ => true⟩⟩
        "/c" 80 ⟨"/a", some 1024, "", "", none⟩ ∧
    fileExistsAfter (filePath "/c" "/a")
      (HandlerFunc ⟨["peerA"], 0, true, true, ⟨[], false⟩, ⟨fun _ => true, fun _ => true⟩⟩
        "/c" 80 ⟨"/a", some 1024, "", "", none⟩) = true := by
  decide

/-- C1 as amended: for every non-relay request with a parseable length
and a non-empty endpoint set, the handler streams through the randomly
chosen peer using a relay URL that carries `relay=true` and the same
byte length — but it does so via `copyFromURL`, so the relaying node
also creates/writes its local cache file and broadcasts STARTED and
ENDED exactly as the authoritative path does (whenever the GET and the
file creation succeed). -/
theorem relay_branch_streams_and_caches (env : Env) (localDir : String) (port : Int)
    (req : Request) (length : Int)
    (hlen : req.lenParam = some length) (hrel : req.relay = "") (hne : env.endpoints ≠ []) :
    HandlerFunc env localDir port req =
      .setContentLength length :: .queryEndpoints req.path ::
        copyFromURL env localDir req.path
          (relayURL (env.endpoints.getD env.randIdx "") port req.path length) ∧
    (∃ pre, relayURL (env.endpoints.getD env.randIdx "") port req.path length =
        pre ++ "?relay=true&len=" ++ toString length) ∧
    (env.getOk = true → env.createOk = true →
      Action.createFile (filePath localDir req.path) ∈ HandlerFunc env localDir port req ∧
      Action.startLayer req.path ∈ HandlerFunc env localDir port req ∧
      Action.endLayer req.path ∈ HandlerFunc env localDir port req) := by
  have hlen1 : env.endpoints.length ≥ 1 := List.length_pos.mpr hne
  have heq : HandlerFunc env localDir port req =
      .setContentLength length :: .queryEndpoints req.path ::
        copyFromURL env localDir req.path
          (relayURL (env.endpoints.getD env.randIdx "") port req.path length) := by
    simp [HandlerFunc, hlen, hrel, hlen1]
  refine ⟨heq, ⟨"http://" ++ env.endpoints.getD env.randIdx "" ++ ":" ++ toString port ++
    req.path, rfl⟩, ?_⟩
  intro hg hc
  rw [heq]
  cases he : copyErr env <;>
    simp [copyFromURL, hg, hc, he]

/-- Witness for the amended C1 at a concrete input. -/
theorem relay_branch_streams_and_caches_witness :
    HandlerFunc ⟨["peerA"], 0, true, true, ⟨[], false⟩, ⟨fun _ => true, fun _ => true⟩⟩
        "/c" 80 ⟨"/a", some 7, "", "", none⟩ =
      .setContentLength 7 :: .queryEndpoints "/a" ::
        copyFromURL ⟨["peerA"], 0, true, true, ⟨[], false⟩, ⟨fun _ => true, fun _ => true⟩⟩
          "/c" "/a" (relayURL "peerA" 80 "/a" 7) :=
  (relay_branch_streams_and_caches
    ⟨["peerA"], 0, true, true, ⟨[], false⟩, ⟨fun _ => true, fun _ => true⟩⟩
    "/c" 80 ⟨"/a", some 7, "", "", none⟩ 7 rfl rfl (by decide)).1

/-- C9: with a parseable length, the handler dispatches in the fixed
source order.  A relay-flagged request is served from the local file
only, with no registry query and no outbound GET; otherwise the registry
is queried and a non-empty endpoint set leads to the peer relay;
otherwise a non-empty source leads to the origin fetch; and when nothing
matches the request ends with no status written, no body copy and no
file served. -/
theorem handler_dispatch_order (env : Env) (localDir : String) (port : Int) (req : Request)
    (length : Int) (hlen : req.lenParam = some length) :
    (req.relay ≠ "" →
      HandlerFunc env localDir port req =
          [.setContentLength length, .serveFromFile req.path length] ∧
      (∀ pth, Action.queryEndpoints pth ∉ HandlerFunc env localDir port req) ∧
      (∀ u, Action.httpGet u ∉ HandlerFunc env localDir port req)) ∧
    (req.relay = "" → env.endpoints.length ≥ 1 →
      HandlerFunc env localDir port req =
        .setContentLength length :: .queryEndpoints req.path ::
          copyFromURL env localDir req.path
            (relayURL (env.endpoints.getD env.randIdx "") port req.path length)) ∧
    (req.relay = "" → env.endpoints = [] → req.source ≠ "" →
      ∀ src, req.unescaped = some src →
        HandlerFunc env localDir port req =
          .setContentLength length :: .queryEndpoints req.path ::
            copyFromURL env localDir req.path src) ∧
    (req.relay = "" → env.endpoints = [] → req.source = "" →
      HandlerFunc env localDir port req = [.setContentLength length, .queryEndpoints req.path] ∧
      (∀ c, Action.writeHeader c ∉ HandlerFunc env localDir port req) ∧
      (∀ u, Action.bodyCopy u ∉ HandlerFunc env localDir port req) ∧
      (∀ pth l, Action.serveFromFile pth l ∉ HandlerFunc env localDir port req)) := by
  refine ⟨?_, ?_, ?_, ?_⟩
  · intro hrel
    have heq : HandlerFunc env localDir port req =
        [.setContentLength length, .serveFromFile req.path length] := by
      simp [HandlerFunc, hlen, hrel]
    refine ⟨heq, ?_, ?_⟩ <;> intro x <;> rw [heq] <;> simp
  · intro hrel hlen1
    simp [HandlerFunc, hlen, hrel, hlen1]
  · intro hrel hemp hsrc src hu
    simp [HandlerFunc, hlen, hrel, hemp, hsrc, hu]
  · intro hrel hemp hsrc
    have heq : HandlerFunc env localDir port req =
        [.setContentLength length, .queryEndpoints req.path] := by
      simp [HandlerFunc, hlen, hrel, hemp, hsrc]
    refine ⟨heq, ?_, ?_, ?_⟩
    · intro c; rw [heq]; simp
    · intro u; rw [heq]; simp
    · intro pth l; rw [heq]; simp

/-- Witness for C9 at a concrete input hitting the final fall-through
branch: no relay flag, no endpoints, no source. -/
theorem handler_dispatch_order_witness :
    HandlerFunc ⟨[], 0, true, true, ⟨[], false⟩, ⟨fun _ => true, fun _ => true⟩⟩
        "/c" 80 ⟨"/a", some 7, "", "", none⟩ =
      [.setContentLength 7, .queryEndpoints "/a"] :=
  ((handler_dispatch_order ⟨[], 0, true, true, ⟨[], false⟩, ⟨fun _ => true, fun _ => true⟩⟩
    "/c" 80 ⟨"/a", some 7, "", "", none⟩ 7 rfl).2.2.2 rfl rfl rfl).1

/-- C7 counterexample: at concrete inputs, a malformed `source`
(unescape failure) yields status 500, which is a server error rather
than the claimed client error; and a failed origin GET yields status
400, a client error rather than the claimed server error. -/
theorem error_status_classes_cex :
    HandlerFunc ⟨[], 0, true, true, ⟨[], false⟩, ⟨fun _ => true, fun _ => true⟩⟩
        "/c" 80 ⟨"/a", some 3, "", "%zz", none⟩ =
      [.setContentLength 3, .queryEndpoints "/a", .writeHeader 500] ∧
    isClientErr 500 = false ∧ isServerErr 500 = true ∧
    copyFromURL ⟨[], 0, false, true, ⟨[], false⟩, ⟨fun _ => true, fun _ => true⟩⟩
        "/c" "/a" "http://origin/a" =
      [.httpGet "http://origin/a", .writeHeader 400] ∧
    isServerErr 400 = false ∧ isClientErr 400 = true := by
  decide

/-- C7 as amended: a client-error status (400) is returned when `len` is
missing or unparseable and when the origin request fails at the initial
connect; a server-error status (500) is returned when the `source`
parameter fails to unescape and when opening/creating the local cache
file fails. -/
theorem error_status_mapping (env : Env) (localDir : String) (port : Int) (req : Request) :
    (req.lenParam = none →
      HandlerFunc env localDir port req = [.writeHeader 400] ∧ isClientErr 400 = true) ∧
    (∀ length, req.lenParam = some length → req.relay = "" → env.endpoints = [] →
      req.source ≠ "" → req.unescaped = none →
        HandlerFunc env localDir port req =
            [.setContentLength length, .queryEndpoints req.path, .writeHeader 500] ∧
        isServerErr 500 = true) ∧
    (∀ p u, env.getOk = false →
      copyFromURL env localDir p u = [.httpGet u, .writeHeader 400] ∧ isClientErr 400 = true) ∧
    (∀ p u, env.getOk = true → env.createOk = false →
      copyFromURL env localDir p u =
          [.httpGet u, .createFile (filePath localDir p), .writeHeader 500] ∧
      isServerErr 500 = true) := by
  refine ⟨?_, ?_, ?_, ?_⟩
  · intro hlen
    exact ⟨by simp [HandlerFunc, hlen], by decide⟩
  · intro length hlen hrel hemp hsrc hu
    exact ⟨by simp [HandlerFunc, hlen, hrel, hemp, hsrc, hu], by decide⟩
  · intro p u hg
    exact ⟨by simp [copyFromURL, hg], by decide⟩
  · intro p u hg hc
    exact ⟨by simp [copyFromURL, hg, hc], by decide⟩

/-- Witness for the amended C7 at concrete inputs: the unescape-failure
path and the failed-GET path. -/
theorem error_status_mapping_witness :
    HandlerFunc ⟨[], 0, true, true, ⟨[], false⟩, ⟨fun _ => true, fun _ => true⟩⟩
        "/c" 80 ⟨"/a", some 3, "", "%zz", none⟩ =
      [.setContentLength 3, .queryEndpoints "/a", .writeHeader 500] ∧
    copyFromURL ⟨[], 0, false, true, ⟨[], false⟩, ⟨fun _ => true, fun _ => true⟩⟩
        "/c" "/a" "http://o" = [.httpGet "http://o", .writeHeader 400] :=
  ⟨((error_status_mapping ⟨[], 0, true, true, ⟨[], false⟩, ⟨fun _ => true, fun _ => true⟩⟩
      "/c" 80 ⟨"/a", some 3, "", "%zz", none⟩).2.1 3 rfl rfl rfl (by decide) rfl).1,
   ((error_status_mapping ⟨[], 0, false, true, ⟨[], false⟩, ⟨fun _ => true, fun _ => true⟩⟩
      "/c" 80 ⟨"/a", some 3, "", "%zz", none⟩).2.2.1 "/a" "http://o" rfl).1⟩

end PullAgent

namespace PullAgent

/-- Helper: a run of the `copyFromFile` loop can only exit with the
offset equal to `length - 1`, by the shape of the loop guard. -/
lemma cffRun_exit_boundary (fileLen length : Int) :
    ∀ (fuel : Nat) (offset o : Int),
      cffRun fileLen length offset fuel = some o → o = length - 1 := by
  intro fuel
  induction fuel with
  | zero =>
    intro offset o h
    by_cases hb : offset = length - 1
    · simp [cffRun, hb] at h
      omega
    · simp [cffRun, hb] at h
  | succ n ih =>
    intro offset o h
    by_cases hb : offset = length - 1
    · simp [cffRun, hb] at h
      omega
    · simp only [cffRun, if_neg hb] at h
      exact ih _ o h

/-- Helper: against a file stuck below 9 bytes and expected length 10,
the loop never exits — after one read the offset sits at the file length
and stays there, short of the boundary 9. -/
lemma cffRun_stuck (fileLen : Int) (hf : fileLen ≤ 8) :
    ∀ (fuel : Nat) (offset : Int), 0 ≤ offset → offset ≤ fileLen →
      cffRun fileLen 10 offset fuel = none := by
  intro fuel
  induction fuel with
  | zero =>
    intro offset h0 hle
    have hb : ¬ offset = 10 - 1 := by omega
    rw [show cffRun fileLen 10 offset 0 =
        (if offset = 10 - 1 then some offset else none) from rfl, if_neg hb]
  | succ n ih =>
    intro offset h0 hle
    have hb : ¬ offset = 10 - 1 := by omega
    have hstep : cffStep fileLen offset = fileLen := by
      simp only [cffStep, readAtN, cffBufSize]
      omega
    rw [show cffRun fileLen 10 offset (n + 1) =
        (if offset = 10 - 1 then some offset
         else cffRun fileLen 10 (cffStep fileLen offset) n) from rfl, if_neg hb, hstep]
    exact ih fileLen (by omega) le_rfl

/-- C8: the stopping condition of the partial-file reader compares the
offset to `length - 1`.  For expected length 10 and a file holding at
most 8 bytes (in particular 5) the loop never terminates, however much
fuel it is given — at end-of-file short of the length it sleeps and
retries; any exit of the loop happens exactly at offset `length - 1`;
and once 9 bytes are present the loop exits at offset 9. -/
theorem cff_polling_boundary :
    (∀ (fileLen : Int) (fuel : Nat), 0 ≤ fileLen → fileLen ≤ 8 →
        cffRun fileLen 10 0 fuel = none) ∧
    (∀ (fileLen length offset o : Int) (fuel : Nat),
        cffRun fileLen length offset fuel = some o → o = length - 1) ∧
    cffRun 9 10 0 1 = some 9 ∧
    cffSleeps 5 10 5 = true := by
  refine ⟨?_, ?_, by decide, by decide⟩
  · intro fileLen fuel h0 h8
    exact cffRun_stuck fileLen h8 fuel 0 le_rfl h0
  · intro fileLen length offset o fuel h
    exact cffRun_exit_boundary fileLen length fuel offset o h

/-- Witness for C8 at concrete inputs: with 5 of 10 bytes present the
loop is still polling after 3 iterations, and the concrete exit of the
9-byte run indeed sits at offset 10 - 1. -/
theorem cff_polling_boundary_witness :
    cffRun 5 10 0 3 = none ∧ (9 : Int) = 10 - 1 :=
  ⟨cff_polling_boundary.1 5 3 (by decide) (by decide),
   cff_polling_boundary.2.1 9 10 0 9 1 (by decide)⟩

/-- C6 counterexample: a user event whose name is neither
`EventStartLayer` nor `EventEndLayer` but whose JSON payload decodes
with status 1 does mutate the registry — the consumption loop never
consults the event name. -/
theorem event_name_ignored_cex :
    ("OTHER" ≠ EventStartLayer ∧ "OTHER" ≠ EventEndLayer) ∧
    processEvent [] ⟨true, "OTHER", some ⟨1, "d", "n"⟩⟩ = [("d", ["n"])] ∧
    processEvent [] ⟨true, "OTHER", some ⟨1, "d", "n"⟩⟩ ≠ [] := by
  decide

/-- C6 as amended: an inbound event whose payload is not valid JSON, or
whose decoded `status` is neither `StatusStarted` (1) nor `StatusEnded`
(0), leaves the registry unchanged, and the consumption loop goes on to
process the subsequent events as if the event had not been there.  The
event name plays no part: only the decoded status field is consulted. -/
theorem malformed_event_tolerant (reg : RegMap) (e : ClusterEvent) (rest : List ClusterEvent)
    (h : e.payload = none ∨
      ∃ le, e.payload = some le ∧ le.status ≠ StatusStarted ∧ le.status ≠ StatusEnded) :
    processEvent reg e = reg ∧ Serve reg (e :: rest) = Serve reg rest ∧
    (∀ n2, processEvent reg ⟨e.isUser, n2, e.payload⟩ = processEvent reg e) := by
  have hpe : processEvent reg e = reg := by
    rcases h with h | ⟨le, hle, hs1, hs0⟩
    · cases hu : e.isUser <;> simp [processEvent, hu, h]
    · cases hu : e.isUser <;> simp [processEvent, hu, hle, hs1, hs0]
  refine ⟨hpe, by simp [Serve, hpe], ?_⟩
  intro n2
  simp [processEvent]

/-- Witness for the amended C6 at a concrete input: a STARTED-named user
event with an unrecognised status 5 leaves a populated registry
untouched and the loop continues with the next event. -/
theorem malformed_event_tolerant_witness :
    processEvent [("d", ["n"])] ⟨true, EventStartLayer, some ⟨5, "d", "m"⟩⟩ = [("d", ["n"])] ∧
    Serve [("d", ["n"])] [⟨true, EventStartLayer, some ⟨5, "d", "m"⟩⟩, ⟨false, "", none⟩] =
      Serve [("d", ["n"])] [⟨false, "", none⟩] :=
  ⟨(malformed_event_tolerant [("d", ["n"])] ⟨true, EventStartLayer, some ⟨5, "d", "m"⟩⟩
      [⟨false, "", none⟩] (Or.inr ⟨⟨5, "d", "m"⟩, rfl, by decide, by decide⟩)).1,
   (malformed_event_tolerant [("d", ["n"])] ⟨true, EventStartLayer, some ⟨5, "d", "m"⟩⟩
      [⟨false, "", none⟩] (Or.inr ⟨⟨5, "d", "m"⟩, rfl, by decide, by decide⟩)).2.1⟩

/-- Helper: reading back the position just overwritten in a list. -/
lemma getD_set_self {α : Type} (d : α) :
    ∀ (l : List α) (r : Nat) (x : α), r < l.length → (l.set r x).getD r d = x := by
  intro l
  induction l with
  | nil =>
    intro r x h
    simp at h
  | cons a t ih =>
    intro r x h
    cases r with
    | zero => simp [List.set, List.getD]
    | succ n =>
      have := ih n x (by simpa using h)
      simpa [List.set, List.getD, List.get?] using this

/-- C2 counterexample: after one `addNode`, `Endpoints` hands out the
stored slice reference itself (reference 0); the caller overwriting
element 0 through that reference makes every subsequent
`Endpoints`-and-read observe `"evil"` instead of `"n1"` — the returned
collection is not a copy and caller mutation corrupts the registry. -/
theorem endpoints_snapshot_cex :
    SerfMem.Endpoints (SerfMem.addNode ⟨[], []⟩ "d" "n1") "d" = some 0 ∧
    SerfMem.readSlice (SerfMem.addNode ⟨[], []⟩ "d" "n1")
        (SerfMem.Endpoints (SerfMem.addNode ⟨[], []⟩ "d" "n1") "d") = ["n1"] ∧
    SerfMem.readSlice (SerfMem.setElem (SerfMem.addNode ⟨[], []⟩ "d" "n1") 0 0 "evil")
        (SerfMem.Endpoints (SerfMem.setElem (SerfMem.addNode ⟨[], []⟩ "d" "n1") 0 0 "evil") "d")
      = ["evil"] := by
  decide

/-- C2 as amended: `Endpoints` returns the registry's internal slice
reference without copying, so a caller mutation through the returned
slice is visible to every subsequent `Endpoints` call: after writing `v`
at element 0 of the returned backing array, `Endpoints` still resolves
to the same reference and reading it yields the mutated array. -/
theorem endpoints_aliases_registry (st : SerfMem.St) (d : String) (r : Nat) (v : String)
    (h : SerfMem.Endpoints st d = some r) (hr : r < st.heap.length) :
    SerfMem.Endpoints (SerfMem.setElem st r 0 v) d = some r ∧
    SerfMem.readSlice (SerfMem.setElem st r 0 v)
        (SerfMem.Endpoints (SerfMem.setElem st r 0 v) d) =
      (st.heap.getD r []).set 0 v := by
  have hend : SerfMem.Endpoints (SerfMem.setElem st r 0 v) d = some r := by
    simpa [SerfMem.Endpoints, SerfMem.setElem] using h
  refine ⟨hend, ?_⟩
  rw [hend]
  simp only [SerfMem.readSlice, SerfMem.setElem]
  exact getD_set_self [] st.heap r ((st.heap.getD r []).set 0 v) hr

/-- Witness for the amended C2 at a concrete state holding one digest
with one node. -/
theorem endpoints_aliases_registry_witness :
    SerfMem.Endpoints (SerfMem.setElem ⟨[["n1"]], [("d", 0)]⟩ 0 0 "evil") "d" = some 0 ∧
    SerfMem.readSlice (SerfMem.setElem ⟨[["n1"]], [("d", 0)]⟩ 0 0 "evil")
        (SerfMem.Endpoints (SerfMem.setElem ⟨[["n1"]], [("d", 0)]⟩ 0 0 "evil") "d") =
      (((⟨[["n1"]], [("d", 0)]⟩ : SerfMem.St).heap.getD 0 []).set 0 "evil") :=
  endpoints_aliases_registry ⟨[["n1"]], [("d", 0)]⟩ "d" 0 "evil" rfl (by decide)

end PullAgent
